import Mathlib

/-!
Shallow embedding of the player-control core of `src/src/main.rs`
(bevy-character-starter): the mouse-capture gate (`MouseLocked`,
`toggle_mouse_lock`, `mouse_lock`), the look controller
(`player_rotation`), and the locomotion controller (`update_player`).

`f32` arithmetic is idealized as real arithmetic.  Vectors and
quaternions follow the source's math library: `Quat::from_rotation_y`,
`Quat::from_rotation_x`, Hamilton quaternion product, the
quaternion-times-vector rotation formula, and `normalize_or_zero`
(which multiplies by the reciprocal length when it is finite and
positive, and yields zero otherwise).
-/

noncomputable section

namespace BevyCharacter

/-- 3-component vector of reals, embedding `Vec3` (f32 components idealized). -/
@[ext] structure Vec3 where
  x : ℝ
  y : ℝ
  z : ℝ

namespace Vec3

/-- `Vec3::ZERO`. -/
def zero : Vec3 := ⟨0, 0, 0⟩

/-- Componentwise addition. -/
def add (a b : Vec3) : Vec3 := ⟨a.x + b.x, a.y + b.y, a.z + b.z⟩

/-- Componentwise subtraction. -/
def sub (a b : Vec3) : Vec3 := ⟨a.x - b.x, a.y - b.y, a.z - b.z⟩

/-- Componentwise product (used for the horizontal mask `Vec3::new(1.0, 0.0, 1.0)`). -/
def mul (a b : Vec3) : Vec3 := ⟨a.x * b.x, a.y * b.y, a.z * b.z⟩

/-- Scalar multiple. -/
def smul (c : ℝ) (a : Vec3) : Vec3 := ⟨c * a.x, c * a.y, c * a.z⟩

/-- Dot product. -/
def dot (a b : Vec3) : ℝ := a.x * b.x + a.y * b.y + a.z * b.z

/-- Cross product. -/
def cross (a b : Vec3) : Vec3 :=
  ⟨a.y * b.z - a.z * b.y, a.z * b.x - a.x * b.z, a.x * b.y - a.y * b.x⟩

/-- Squared Euclidean length. -/
def normSq (a : Vec3) : ℝ := a.x * a.x + a.y * a.y + a.z * a.z

/-- Euclidean length (`Vec3::length`). -/
def norm (a : Vec3) : ℝ := Real.sqrt a.normSq

/-- `Vec3::normalize_or_zero`: scale by the reciprocal length when the length
is positive (so the reciprocal is finite and positive), otherwise zero. -/
def normalize_or_zero (a : Vec3) : Vec3 :=
  if 0 < a.norm then smul a.norm⁻¹ a else zero

end Vec3

/-- Quaternion with real components, embedding `Quat` (x, y, z imaginary parts, w real part). -/
@[ext] structure Quat where
  x : ℝ
  y : ℝ
  z : ℝ
  w : ℝ

namespace Quat

/-- `Quat::IDENTITY`. -/
def identity : Quat := ⟨0, 0, 0, 1⟩

/-- Hamilton product `q1 * q2`. -/
def mul (a b : Quat) : Quat :=
  ⟨a.w * b.x + a.x * b.w + a.y * b.z - a.z * b.y,
   a.w * b.y + a.y * b.w + a.z * b.x - a.x * b.z,
   a.w * b.z + a.z * b.w + a.x * b.y - a.y * b.x,
   a.w * b.w - a.x * b.x - a.y * b.y - a.z * b.z⟩

/-- `Quat::from_rotation_y θ` = (0, sin (θ/2), 0, cos (θ/2)). -/
def fromRotationY (θ : ℝ) : Quat := ⟨0, Real.sin (θ / 2), 0, Real.cos (θ / 2)⟩

/-- `Quat::from_rotation_x θ` = (sin (θ/2), 0, 0, cos (θ/2)). -/
def fromRotationX (θ : ℝ) : Quat := ⟨Real.sin (θ / 2), 0, 0, Real.cos (θ / 2)⟩

/-- The imaginary part as a vector. -/
def xyz (q : Quat) : Vec3 := ⟨q.x, q.y, q.z⟩

/-- `Quat * Vec3` rotation, as computed by the source's math library:
`v * (w² − b·b) + b * (2 (v·b)) + (b × v) * (2 w)` with `b = q.xyz`. -/
def mulVec3 (q : Quat) (v : Vec3) : Vec3 :=
  let b := q.xyz
  (Vec3.smul (q.w * q.w - b.dot b) v).add
    ((Vec3.smul (2 * v.dot b) b).add (Vec3.smul (2 * q.w) (b.cross v)))

end Quat

/-- Rotating a vector by `Quat::from_rotation_y θ` is the matrix rotation by
angle `θ` about the +Y axis (and fixes the Y component). -/
theorem Quat.mulVec3_fromRotationY (θ : ℝ) (v : Vec3) :
    (Quat.fromRotationY θ).mulVec3 v =
      ⟨v.x * Real.cos θ + v.z * Real.sin θ, v.y,
       v.z * Real.cos θ - v.x * Real.sin θ⟩ := by
  have h2 : (2 : ℝ) * (θ / 2) = θ := by ring
  have hs : Real.sin θ = 2 * Real.sin (θ / 2) * Real.cos (θ / 2) := by
    have h1 := Real.sin_two_mul (θ / 2)
    rw [h2] at h1
    exact h1
  have hc : Real.cos θ = 2 * Real.cos (θ / 2) ^ 2 - 1 := by
    have h1 := Real.cos_two_mul (θ / 2)
    rw [h2] at h1
    exact h1
  have hsc := Real.sin_sq_add_cos_sq (θ / 2)
  ext
  case x =>
    simp only [Quat.mulVec3, Quat.fromRotationY, Quat.xyz, Vec3.add, Vec3.smul,
      Vec3.dot, Vec3.cross, hs, hc]
    linear_combination (-v.x) * hsc
  case y =>
    simp only [Quat.mulVec3, Quat.fromRotationY, Quat.xyz, Vec3.add, Vec3.smul,
      Vec3.dot, Vec3.cross, hs, hc]
    linear_combination v.y * hsc
  case z =>
    simp only [Quat.mulVec3, Quat.fromRotationY, Quat.xyz, Vec3.add, Vec3.smul,
      Vec3.dot, Vec3.cross, hs, hc]
    linear_combination (-v.z) * hsc

/-- Composing two yaw quaternions adds the angles. -/
theorem Quat.fromRotationY_mul_fromRotationY (a b : ℝ) :
    (Quat.fromRotationY a).mul (Quat.fromRotationY b) = Quat.fromRotationY (a + b) := by
  have h : (a + b) / 2 = a / 2 + b / 2 := by ring
  ext <;>
    simp only [Quat.mul, Quat.fromRotationY, h, Real.sin_add, Real.cos_add] <;>
    ring

/-! ## Input and window state -/

/-- The set of keys the locomotion and jump code queries with
`keyboard.pressed`: W, S, A, D and Space. -/
structure HeldKeys where
  keyW : Bool
  keyS : Bool
  keyA : Bool
  keyD : Bool
  space : Bool

/-- One `MouseMotion` event: the frame's pointer delta `(dx, dy)`. -/
structure MouseMotion where
  dx : ℝ
  dy : ℝ

/-- `bevy::window::CursorGrabMode`. -/
inductive CursorGrabMode
  | Locked
  | Confined
  | None
deriving DecidableEq

/-- The primary window's cursor options the core mutates. -/
structure CursorState where
  grab_mode : CursorGrabMode
  visible : Bool
deriving DecidableEq

/-! ## Input-capture gate (`toggle_mouse_lock` and `mouse_lock`) -/

/-- `toggle_mouse_lock`: if Escape was just pressed this frame, flip the
`MouseLocked` flag. -/
def toggle_mouse_lock (escape_just_pressed : Bool) (locked : Bool) : Bool :=
  if escape_just_pressed then !locked else locked

/-- `mouse_lock`: when the `MouseLocked` resource changed this frame, set
`(grab_mode, visible)` to `(Confined, true)` if locked and `(None, false)`
otherwise; when it did not change, leave the window untouched. -/
def mouse_lock (locked_changed : Bool) (locked : Bool) (c : CursorState) : CursorState :=
  if locked_changed then
    if locked then ⟨CursorGrabMode.Confined, true⟩ else ⟨CursorGrabMode.None, false⟩
  else c

/-- One frame of the capture gate: `toggle_mouse_lock` runs, and `mouse_lock`
observes the resource as changed exactly when the toggle wrote it (an Escape
edge). Returns the new flag and cursor state. -/
def gateFrame (escape_just_pressed : Bool) (locked : Bool) (c : CursorState) :
    Bool × CursorState :=
  let locked' := toggle_mouse_lock escape_just_pressed locked
  (locked', mouse_lock escape_just_pressed locked' c)

/-! ## Look controller (`player_rotation`) -/

/-- `SENS` from `player_rotation`. -/
def SENS : ℝ := 0.005

/-- The mutable state `player_rotation` touches: the Player transform's
rotation, the camera transform's (local) rotation, and the `PlayerCamera`
pitch accumulator. -/
structure LookState where
  playerRotation : Quat
  cameraRotation : Quat
  playerCamera : ℝ

/-- Rust `f32::clamp`. -/
def clampR (x lo hi : ℝ) : ℝ := if x < lo then lo else if x > hi then hi else x

/-- The body of `player_rotation`'s event loop for one `MouseMotion` event:
`Transform::rotate_y` pre-composes `Quat::from_rotation_y (-dx * SENS)` onto
the player rotation; the pitch accumulator is clamped into `[-π/2, π/2]`;
the camera rotation is assigned `Quat::from_rotation_x` of the accumulator. -/
def lookStep (s : LookState) (ev : MouseMotion) : LookState :=
  let pr := (Quat.fromRotationY (-ev.dx * SENS)).mul s.playerRotation
  let pc := clampR (s.playerCamera - ev.dy * SENS) (-(Real.pi / 2)) (Real.pi / 2)
  ⟨pr, Quat.fromRotationX pc, pc⟩

/-- `player_rotation`: if the mouse is not locked, return early; otherwise
fold the frame's `MouseMotion` events in arrival order. -/
def player_rotation (locked : Bool) (events : List MouseMotion) (s : LookState) : LookState :=
  if locked then events.foldl lookStep s else s

/-! ## Locomotion controller (`update_player`) -/

/-- The `TnuaBuiltinWalk` fields the code sets (the rest are defaults). -/
structure TnuaBuiltinWalk where
  desired_velocity : Vec3
  float_height : ℝ

/-- The `TnuaBuiltinJump` fields the code sets. -/
structure TnuaBuiltinJump where
  height : ℝ
  shorten_extra_gravity : ℝ

/-- The raw local direction built by `update_player`'s four `if` statements:
start from `Vec3::ZERO`, subtract `Vec3::Z` for W, add `Vec3::Z` for S,
subtract `Vec3::X` for A, add `Vec3::X` for D. -/
def rawDirection (k : HeldKeys) : Vec3 :=
  let d0 := Vec3.zero
  let d1 := if k.keyW then d0.sub ⟨0, 0, 1⟩ else d0
  let d2 := if k.keyS then d1.add ⟨0, 0, 1⟩ else d1
  let d3 := if k.keyA then d2.sub ⟨1, 0, 0⟩ else d2
  let d4 := if k.keyD then d3.add ⟨1, 0, 0⟩ else d3
  d4

/-- The world-space direction of `update_player`:
`(transform.rotation * direction) * Vec3::new(1.0, 0.0, 1.0)`. -/
def worldDirection (rotation : Quat) (k : HeldKeys) : Vec3 :=
  (rotation.mulVec3 (rawDirection k)).mul ⟨1, 0, 1⟩

/-- `update_player`: build the direction from held keys, rotate it by the
player transform's rotation, mask out the vertical component, and submit a
`TnuaBuiltinWalk` basis with `desired_velocity = normalize_or_zero * 10.0`
and `float_height = 1.5`; additionally submit a `TnuaBuiltinJump` action
with `height = 4.0` and `shorten_extra_gravity = 0.0` iff Space is held. -/
def update_player (keys : HeldKeys) (rotation : Quat) :
    TnuaBuiltinWalk × Option TnuaBuiltinJump :=
  (⟨Vec3.smul 10 (worldDirection rotation keys).normalize_or_zero, 1.5⟩,
   if keys.space then some ⟨4, 0⟩ else none)

/-- One simulation frame of the chained systems
`(player_rotation, update_player).chain()`: the look controller runs first,
then the locomotion controller reads the player's post-look rotation. -/
def frame (locked : Bool) (events : List MouseMotion) (keys : HeldKeys) (s : LookState) :
    LookState × (TnuaBuiltinWalk × Option TnuaBuiltinJump) :=
  let s' := player_rotation locked events s
  (s', update_player keys s'.playerRotation)

/-! ## Helper lemmas -/

theorem clampR_mem (x lo hi : ℝ) (h : lo ≤ hi) :
    lo ≤ clampR x lo hi ∧ clampR x lo hi ≤ hi := by
  unfold clampR
  split_ifs with h1 h2 <;> constructor <;> linarith

theorem clampR_eq_self (x lo hi : ℝ) (h1 : lo ≤ x) (h2 : x ≤ hi) : clampR x lo hi = x := by
  unfold clampR
  split_ifs <;> linarith

theorem lookStep_playerCamera_mem (s : LookState) (ev : MouseMotion) :
    -(Real.pi / 2) ≤ (lookStep s ev).playerCamera ∧
      (lookStep s ev).playerCamera ≤ Real.pi / 2 := by
  have hpi := Real.pi_pos
  exact clampR_mem _ _ _ (by linarith)

theorem foldl_lookStep_playerCamera_mem (evs : List MouseMotion) (s : LookState)
    (h : -(Real.pi / 2) ≤ s.playerCamera ∧ s.playerCamera ≤ Real.pi / 2) :
    -(Real.pi / 2) ≤ (evs.foldl lookStep s).playerCamera ∧
      (evs.foldl lookStep s).playerCamera ≤ Real.pi / 2 := by
  induction evs generalizing s with
  | nil => exact h
  | cons e t ih => exact ih _ (lookStep_playerCamera_mem s e)

theorem player_rotation_playerCamera_mem (locked : Bool) (evs : List MouseMotion)
    (s : LookState)
    (h : -(Real.pi / 2) ≤ s.playerCamera ∧ s.playerCamera ≤ Real.pi / 2) :
    -(Real.pi / 2) ≤ (player_rotation locked evs s).playerCamera ∧
      (player_rotation locked evs s).playerCamera ≤ Real.pi / 2 := by
  unfold player_rotation
  split_ifs
  · exact foldl_lookStep_playerCamera_mem evs s h
  · exact h

theorem rawDirection_eq (k : HeldKeys) :
    rawDirection k =
      ⟨(if k.keyD then (1 : ℝ) else 0) - (if k.keyA then (1 : ℝ) else 0), 0,
       (if k.keyS then (1 : ℝ) else 0) - (if k.keyW then (1 : ℝ) else 0)⟩ := by
  obtain ⟨w, s, a, d, sp⟩ := k
  cases w <;> cases s <;> cases a <;> cases d <;>
    simp [rawDirection, Vec3.zero, Vec3.add, Vec3.sub]

theorem worldDirection_fromRotationY (θ : ℝ) (k : HeldKeys) :
    worldDirection (Quat.fromRotationY θ) k =
      ⟨(rawDirection k).x * Real.cos θ + (rawDirection k).z * Real.sin θ, 0,
       (rawDirection k).z * Real.cos θ - (rawDirection k).x * Real.sin θ⟩ := by
  unfold worldDirection
  rw [Quat.mulVec3_fromRotationY]
  ext <;> simp [Vec3.mul]

theorem Vec3.norm_nonneg (v : Vec3) : 0 ≤ v.norm := Real.sqrt_nonneg _

theorem Vec3.norm_zero : (Vec3.zero).norm = 0 := by
  simp [Vec3.norm, Vec3.normSq, Vec3.zero]

theorem Vec3.normSq_smul (c : ℝ) (v : Vec3) : (Vec3.smul c v).normSq = c ^ 2 * v.normSq := by
  simp only [Vec3.smul, Vec3.normSq]
  ring

theorem Vec3.norm_smul (c : ℝ) (v : Vec3) : (Vec3.smul c v).norm = |c| * v.norm := by
  rw [Vec3.norm, Vec3.normSq_smul, Real.sqrt_mul (sq_nonneg c), Real.sqrt_sq_eq_abs, Vec3.norm]

theorem Vec3.norm_normalize_or_zero_of_pos (v : Vec3) (h : 0 < v.norm) :
    v.normalize_or_zero.norm = 1 := by
  rw [Vec3.normalize_or_zero, if_pos h, Vec3.norm_smul, abs_of_pos (inv_pos.mpr h),
    inv_mul_cancel₀ (ne_of_gt h)]

theorem Vec3.normalize_or_zero_of_not_pos (v : Vec3) (h : ¬0 < v.norm) :
    v.normalize_or_zero = Vec3.zero := by
  rw [Vec3.normalize_or_zero, if_neg h]

theorem update_player_desired_velocity (keys : HeldKeys) (rotation : Quat) :
    (update_player keys rotation).1.desired_velocity =
      Vec3.smul 10 (worldDirection rotation keys).normalize_or_zero := rfl

theorem foldl_lookStep_playerRotation_eq (l1 : List MouseMotion) :
    ∀ (l2 : List MouseMotion) (s1 s2 : LookState),
      s1.playerRotation = s2.playerRotation →
      l1.map MouseMotion.dx = l2.map MouseMotion.dx →
      (l1.foldl lookStep s1).playerRotation = (l2.foldl lookStep s2).playerRotation := by
  induction l1 with
  | nil =>
    intro l2 s1 s2 hr hdx
    cases l2 with
    | nil => exact hr
    | cons e2 t2 => simp at hdx
  | cons e t ih =>
    intro l2 s1 s2 hr hdx
    cases l2 with
    | nil => simp at hdx
    | cons e2 t2 =>
      simp only [List.map_cons, List.cons.injEq] at hdx
      simp only [List.foldl_cons]
      refine ih t2 _ _ ?_ hdx.2
      simp only [lookStep, hr, hdx.1]

theorem foldl_lookStep_playerCamera_eq (l1 : List MouseMotion) :
    ∀ (l2 : List MouseMotion) (s1 s2 : LookState),
      s1.playerCamera = s2.playerCamera →
      l1.map MouseMotion.dy = l2.map MouseMotion.dy →
      (l1.foldl lookStep s1).playerCamera = (l2.foldl lookStep s2).playerCamera := by
  induction l1 with
  | nil =>
    intro l2 s1 s2 hp hdy
    cases l2 with
    | nil => exact hp
    | cons e2 t2 => simp at hdy
  | cons e t ih =>
    intro l2 s1 s2 hp hdy
    cases l2 with
    | nil => simp at hdy
    | cons e2 t2 =>
      simp only [List.map_cons, List.cons.injEq] at hdy
      simp only [List.foldl_cons]
      refine ih t2 _ _ ?_ hdy.2
      simp only [lookStep, hp, hdy.1]

/-! ## Claim theorems -/

/-- C1: For every initial pitch accumulator value in [−π/2, π/2] and every
finite sequence of pointer-motion delta events processed by the look
controller in arrival order, the pitch accumulator after processing the
sequence — and after each intermediate event, i.e. after every prefix of the
sequence — lies within [−π/2, π/2] inclusive, regardless of the magnitude or
sign of the deltas. -/
theorem C1_pitch_accumulator_clamped (locked : Bool) (s : LookState)
    (h : -(Real.pi / 2) ≤ s.playerCamera ∧ s.playerCamera ≤ Real.pi / 2)
    (events : List MouseMotion) :
    (-(Real.pi / 2) ≤ (player_rotation locked events s).playerCamera ∧
        (player_rotation locked events s).playerCamera ≤ Real.pi / 2) ∧
      ∀ pre suf, events = pre ++ suf →
        -(Real.pi / 2) ≤ (player_rotation locked pre s).playerCamera ∧
          (player_rotation locked pre s).playerCamera ≤ Real.pi / 2 := by
  refine ⟨player_rotation_playerCamera_mem locked events s h, ?_⟩
  intro pre suf _
  exact player_rotation_playerCamera_mem locked pre s h

/-- Witness for C1 at a concrete state and event sequence with large deltas
of both signs. -/
theorem C1_pitch_accumulator_clamped_witness :
    -(Real.pi / 2) ≤
        (player_rotation true [⟨100, 3000⟩, ⟨-5, -100000⟩]
          ⟨Quat.identity, Quat.identity, 0⟩).playerCamera ∧
      (player_rotation true [⟨100, 3000⟩, ⟨-5, -100000⟩]
          ⟨Quat.identity, Quat.identity, 0⟩).playerCamera ≤ Real.pi / 2 :=
  (C1_pitch_accumulator_clamped true ⟨Quat.identity, Quat.identity, 0⟩
    (by constructor <;> simp <;> linarith [Real.pi_pos])
    [⟨100, 3000⟩, ⟨-5, -100000⟩]).1

/-- C6: For every pointer-motion event (dx, dy) processed while capture mode
is on, the look controller pre-composes the relative rotation
`from_rotation_y (−dx × SENS)` onto the Player's existing orientation; in
particular, starting from a pure-yaw orientation with the pitch accumulator
in range, the single delta (dx = 100, dy = 0) with SENS = 0.005 changes the
yaw by exactly −0.5 rad and leaves the pitch accumulator unchanged. -/
theorem C6_yaw_step_composition (s : LookState) (θ : ℝ)
    (hq : s.playerRotation = Quat.fromRotationY θ)
    (hp : -(Real.pi / 2) ≤ s.playerCamera ∧ s.playerCamera ≤ Real.pi / 2) :
    (∀ dx dy : ℝ, (lookStep s ⟨dx, dy⟩).playerRotation =
        (Quat.fromRotationY (-dx * SENS)).mul s.playerRotation) ∧
      (lookStep s ⟨100, 0⟩).playerRotation = Quat.fromRotationY (θ - 0.5) ∧
      (lookStep s ⟨100, 0⟩).playerCamera = s.playerCamera := by
  refine ⟨fun dx dy => rfl, ?_, ?_⟩
  · show (Quat.fromRotationY (-100 * SENS)).mul s.playerRotation = _
    rw [hq, Quat.fromRotationY_mul_fromRotationY]
    norm_num [SENS]
    ring_nf
  · show clampR (s.playerCamera - 0 * SENS) (-(Real.pi / 2)) (Real.pi / 2) = _
    rw [zero_mul, sub_zero]
    exact clampR_eq_self _ _ _ hp.1 hp.2

/-- Witness for C6 at yaw 0 and pitch accumulator 0. -/
theorem C6_yaw_step_composition_witness :
    (lookStep ⟨Quat.fromRotationY 0, Quat.identity, 0⟩ ⟨100, 0⟩).playerRotation =
        Quat.fromRotationY (0 - 0.5) ∧
      (lookStep ⟨Quat.fromRotationY 0, Quat.identity, 0⟩ ⟨100, 0⟩).playerCamera = 0 :=
  ⟨(C6_yaw_step_composition ⟨Quat.fromRotationY 0, Quat.identity, 0⟩ 0 rfl
      (by constructor <;> simp <;> linarith [Real.pi_pos])).2.1,
   (C6_yaw_step_composition ⟨Quat.fromRotationY 0, Quat.identity, 0⟩ 0 rfl
      (by constructor <;> simp <;> linarith [Real.pi_pos])).2.2⟩

/-- C8: For any two frames of pointer-motion events processed while captured
that agree on every event's dx (but may differ in dy), the resulting player
rotation is identical; and for any two frames that agree on every event's dy
(but may differ in dx), the resulting pitch accumulator is identical — yaw is
purely a function of the dx sequence and pitch purely a function of the dy
sequence. -/
theorem C8_yaw_pitch_noninterference (s : LookState) (l1 l2 : List MouseMotion) :
    (l1.map MouseMotion.dx = l2.map MouseMotion.dx →
        (player_rotation true l1 s).playerRotation =
          (player_rotation true l2 s).playerRotation) ∧
      (l1.map MouseMotion.dy = l2.map MouseMotion.dy →
        (player_rotation true l1 s).playerCamera =
          (player_rotation true l2 s).playerCamera) := by
  constructor
  · intro hdx
    simp only [player_rotation, if_true]
    exact foldl_lookStep_playerRotation_eq l1 l2 s s rfl hdx
  · intro hdy
    simp only [player_rotation, if_true]
    exact foldl_lookStep_playerCamera_eq l1 l2 s s rfl hdy

/-- Witness for C8: same dx with different dy gives the same rotation, and
same dy with different dx gives the same pitch accumulator. -/
theorem C8_yaw_pitch_noninterference_witness :
    (player_rotation true [⟨1, 2⟩] ⟨Quat.identity, Quat.identity, 0⟩).playerRotation =
        (player_rotation true [⟨1, 3⟩] ⟨Quat.identity, Quat.identity, 0⟩).playerRotation ∧
      (player_rotation true [⟨5, 2⟩] ⟨Quat.identity, Quat.identity, 0⟩).playerCamera =
        (player_rotation true [⟨7, 2⟩] ⟨Quat.identity, Quat.identity, 0⟩).playerCamera :=
  ⟨(C8_yaw_pitch_noninterference ⟨Quat.identity, Quat.identity, 0⟩ [⟨1, 2⟩] [⟨1, 3⟩]).1 rfl,
   (C8_yaw_pitch_noninterference ⟨Quat.identity, Quat.identity, 0⟩ [⟨5, 2⟩] [⟨7, 2⟩]).2 rfl⟩

/-- C5: For every held-key set, the raw player-local direction vector is the
sum of unit contributions forward → −Z, backward → +Z, left → −X,
right → +X; when two opposite keys are both held, their axis's contribution
is exactly zero, and when no movement key is held, the raw vector is exactly
the zero vector. -/
theorem C5_raw_direction_sum (k : HeldKeys) :
    rawDirection k =
        ⟨(if k.keyD then (1 : ℝ) else 0) - (if k.keyA then (1 : ℝ) else 0), 0,
         (if k.keyS then (1 : ℝ) else 0) - (if k.keyW then (1 : ℝ) else 0)⟩ ∧
      (k.keyW = true → k.keyS = true → (rawDirection k).z = 0) ∧
      (k.keyA = true → k.keyD = true → (rawDirection k).x = 0) ∧
      (k.keyW = false → k.keyS = false → k.keyA = false → k.keyD = false →
        rawDirection k = Vec3.zero) := by
  refine ⟨rawDirection_eq k, ?_, ?_, ?_⟩
  · intro hw hs
    rw [rawDirection_eq]
    simp [hw, hs]
  · intro ha hd
    rw [rawDirection_eq]
    simp [ha, hd]
  · intro hw hs ha hd
    rw [rawDirection_eq]
    simp [hw, hs, ha, hd, Vec3.zero]

/-- Witness for C5: forward+backward+left+right held cancels both axes, and
no movement key held gives the zero vector. -/
theorem C5_raw_direction_sum_witness :
    (rawDirection ⟨true, true, true, true, false⟩).z = 0 ∧
      (rawDirection ⟨true, true, true, true, false⟩).x = 0 ∧
      rawDirection ⟨false, false, false, false, true⟩ = Vec3.zero :=
  ⟨(C5_raw_direction_sum ⟨true, true, true, true, false⟩).2.1 rfl rfl,
   (C5_raw_direction_sum ⟨true, true, true, true, false⟩).2.2.1 rfl rfl,
   (C5_raw_direction_sum ⟨false, false, false, false, true⟩).2.2.2 rfl rfl rfl rfl⟩

/-- C4: When the direction vector built from the held keys (after the yaw
transform and the horizontal mask) is the zero vector, `normalize_or_zero`
yields exactly the zero vector, so the submitted desired velocity is the
zero vector. -/
theorem C4_zero_normalization (keys : HeldKeys) (rotation : Quat)
    (h : worldDirection rotation keys = Vec3.zero) :
    Vec3.normalize_or_zero Vec3.zero = Vec3.zero ∧
      (update_player keys rotation).1.desired_velocity = Vec3.zero := by
  have hz : Vec3.normalize_or_zero Vec3.zero = Vec3.zero := by
    rw [Vec3.normalize_or_zero, if_neg]
    rw [Vec3.norm_zero]
    exact lt_irrefl 0
  refine ⟨hz, ?_⟩
  rw [update_player_desired_velocity, h, hz]
  simp [Vec3.smul, Vec3.zero]

/-- Witness for C4: no movement key held with the identity orientation gives
the zero world direction and therefore a zero desired velocity. -/
theorem C4_zero_normalization_witness :
    (update_player ⟨false, false, false, false, false⟩ Quat.identity).1.desired_velocity =
      Vec3.zero :=
  (C4_zero_normalization ⟨false, false, false, false, false⟩ Quat.identity
    (by
      ext <;>
        simp [worldDirection, rawDirection, Quat.identity, Quat.mulVec3, Quat.xyz,
          Vec3.zero, Vec3.add, Vec3.smul, Vec3.mul, Vec3.dot, Vec3.cross])).2

/-- C3: With player yaw 0: if the held keys are exactly {forward}, the
submitted desired velocity is (0, 0, −10); if the held keys are exactly
{forward, right}, the raw local direction is (1, 0, −1), its normalization
is (1/√2, 0, −1/√2) ≈ (0.707, 0, −0.707), and the submitted desired
velocity is (10/√2, 0, −10/√2) ≈ (7.07, 0, −7.07), using target speed 10. -/
theorem C3_forward_and_diagonal_velocity :
    (update_player ⟨true, false, false, false, false⟩
          (Quat.fromRotationY 0)).1.desired_velocity = ⟨0, 0, -10⟩ ∧
      rawDirection ⟨true, false, false, true, false⟩ = ⟨1, 0, -1⟩ ∧
      (worldDirection (Quat.fromRotationY 0)
          ⟨true, false, false, true, false⟩).normalize_or_zero =
        ⟨1 / Real.sqrt 2, 0, -(1 / Real.sqrt 2)⟩ ∧
      (update_player ⟨true, false, false, true, false⟩
          (Quat.fromRotationY 0)).1.desired_velocity =
        ⟨10 / Real.sqrt 2, 0, -(10 / Real.sqrt 2)⟩ := by
  have hrawW : rawDirection ⟨true, false, false, false, false⟩ = ⟨0, 0, -1⟩ := by
    rw [rawDirection_eq]
    norm_num
  have hrawWD : rawDirection ⟨true, false, false, true, false⟩ = ⟨1, 0, -1⟩ := by
    rw [rawDirection_eq]
    norm_num
  have hwW : worldDirection (Quat.fromRotationY 0) ⟨true, false, false, false, false⟩ =
      ⟨0, 0, -1⟩ := by
    rw [worldDirection_fromRotationY, hrawW]
    ext <;> simp
  have hwWD : worldDirection (Quat.fromRotationY 0) ⟨true, false, false, true, false⟩ =
      ⟨1, 0, -1⟩ := by
    rw [worldDirection_fromRotationY, hrawWD]
    ext <;> simp
  have hnW : (⟨0, 0, -1⟩ : Vec3).norm = 1 := by
    rw [Vec3.norm]
    norm_num [Vec3.normSq, Real.sqrt_one]
  have hnWD : (⟨1, 0, -1⟩ : Vec3).norm = Real.sqrt 2 := by
    rw [Vec3.norm]
    norm_num [Vec3.normSq]
  have hposWD : (0 : ℝ) < Real.sqrt 2 := Real.sqrt_pos.mpr (by norm_num)
  have hnorW : (⟨0, 0, -1⟩ : Vec3).normalize_or_zero = ⟨0, 0, -1⟩ := by
    rw [Vec3.normalize_or_zero, if_pos (by rw [hnW]; norm_num), hnW]
    ext <;> simp [Vec3.smul]
  have hnorWD : (⟨1, 0, -1⟩ : Vec3).normalize_or_zero =
      ⟨1 / Real.sqrt 2, 0, -(1 / Real.sqrt 2)⟩ := by
    rw [Vec3.normalize_or_zero, if_pos (by rw [hnWD]; exact hposWD), hnWD]
    ext <;> simp [Vec3.smul, one_div]
  refine ⟨?_, hrawWD, ?_, ?_⟩
  · rw [update_player_desired_velocity, hwW, hnorW]
    ext <;> simp [Vec3.smul]
  · rw [hwWD]
    exact hnorWD
  · rw [update_player_desired_velocity, hwWD, hnorWD]
    ext <;> simp [Vec3.smul, div_eq_mul_inv, one_div]

/-- C10: For every held-key set and every pure-yaw player orientation, the
desired velocity submitted to the character controller has vertical (Y)
component exactly zero and magnitude exactly 0 or exactly 10. -/
theorem C10_velocity_horizontal_and_speed (keys : HeldKeys) (θ : ℝ) :
    ((update_player keys (Quat.fromRotationY θ)).1.desired_velocity).y = 0 ∧
      (((update_player keys (Quat.fromRotationY θ)).1.desired_velocity).norm = 0 ∨
        ((update_player keys (Quat.fromRotationY θ)).1.desired_velocity).norm = 10) := by
  rw [update_player_desired_velocity]
  set w := worldDirection (Quat.fromRotationY θ) keys with hw
  have hwy : w.y = 0 := by rw [hw, worldDirection_fromRotationY]
  by_cases h : 0 < w.norm
  · constructor
    · rw [Vec3.normalize_or_zero, if_pos h]
      simp [Vec3.smul, hwy]
    · right
      rw [Vec3.norm_smul, Vec3.norm_normalize_or_zero_of_pos w h]
      norm_num
  · constructor
    · rw [Vec3.normalize_or_zero_of_not_pos w h]
      simp [Vec3.smul, Vec3.zero]
    · left
      rw [Vec3.normalize_or_zero_of_not_pos w h, Vec3.norm_smul, Vec3.norm_zero, mul_zero]

/-- C2 evaluation: when the capture flag changes, the code sets the grab mode
as the claim says (Confined when on, None when off) but the cursor
visibility the opposite way: `visible = true` while capture mode is ON and
`visible = false` while it is OFF, instead of hidden-while-captured and
shown-while-free. -/
theorem C2_cursor_visibility_inverted :
    (mouse_lock true true ⟨CursorGrabMode.None, false⟩).visible = true ∧
      (mouse_lock true true ⟨CursorGrabMode.None, false⟩).grab_mode =
        CursorGrabMode.Confined ∧
      (mouse_lock true false ⟨CursorGrabMode.Confined, true⟩).visible = false ∧
      (mouse_lock true false ⟨CursorGrabMode.Confined, true⟩).grab_mode =
        CursorGrabMode.None := by
  decide

/-- C9: Starting from any capture flag value and any cursor state consistent
with it (i.e. the state `mouse_lock` itself would set for that flag), two
successive edge-triggered Escape presses — each processed together with its
cursor update — restore both the original flag and the original cursor
visibility and grab mode. -/
theorem C9_double_toggle_roundtrip (locked : Bool) (c : CursorState)
    (h : mouse_lock true locked c = c) :
    gateFrame true (gateFrame true locked c).1 (gateFrame true locked c).2 = (locked, c) := by
  cases locked <;>
    · simp only [gateFrame, toggle_mouse_lock, mouse_lock, if_true, Bool.not_false,
        Bool.not_true]
      rw [← h]
      simp [mouse_lock]

/-- Witness for C9 from the captured state with its consistent cursor state. -/
theorem C9_double_toggle_roundtrip_witness :
    gateFrame true (gateFrame true true ⟨CursorGrabMode.Confined, true⟩).1
        (gateFrame true true ⟨CursorGrabMode.Confined, true⟩).2 =
      (true, ⟨CursorGrabMode.Confined, true⟩) :=
  C9_double_toggle_roundtrip true ⟨CursorGrabMode.Confined, true⟩ (by decide)

/-- C7: On a frame in which capture mode is off, the look controller leaves
the player's orientation, the camera's pitch accumulator and the camera's
local rotation unchanged, while the locomotion controller still submits the
walk basis computed by `update_player` from the held keys and current
orientation — identical to a captured frame whose look update leaves the
orientation unchanged — and submits the jump action exactly when the jump
key is held. Only look input is gated. -/
theorem C7_only_look_gated (events events2 : List MouseMotion) (keys : HeldKeys)
    (s : LookState) :
    (frame false events keys s).1 = s ∧
      (frame false events keys s).2 = update_player keys s.playerRotation ∧
      ((player_rotation true events2 s).playerRotation = s.playerRotation →
        (frame true events2 keys s).2 = (frame false events keys s).2) ∧
      (frame false events keys s).2.2 =
        (if keys.space then some (⟨4, 0⟩ : TnuaBuiltinJump) else none) := by
  refine ⟨rfl, rfl, ?_, rfl⟩
  intro h
  show update_player keys (player_rotation true events2 s).playerRotation =
    update_player keys (player_rotation false events s).playerRotation
  rw [h]
  rfl

/-- Witness for C7: an uncaptured frame with pending motion events submits
the same basis and jump as a captured frame with no motion events. -/
theorem C7_only_look_gated_witness :
    (frame true [] ⟨true, false, false, false, true⟩
        ⟨Quat.identity, Quat.identity, 0⟩).2 =
      (frame false [⟨3, 4⟩] ⟨true, false, false, false, true⟩
        ⟨Quat.identity, Quat.identity, 0⟩).2 :=
  (C7_only_look_gated [⟨3, 4⟩] [] ⟨true, false, false, false, true⟩
    ⟨Quat.identity, Quat.identity, 0⟩).2.2.1 rfl

end BevyCharacter
